import Mathlib

/-!
Shallow embedding of the `sistema_restaurante` repository: the React/TypeScript
front end (PDV cart, payables screen, axios interceptors) is translated
directly from the source files, and the backend core that the front end
consumes over REST (stock ledger, consumption estimator, alert engine,
periodic aggregator) is modelled from the specification, since its code is
not part of the repository snapshot.

Conventions: TypeScript `number` quantities and prices become `ℚ` (or `Nat`
for integral counters such as cart quantities), `string | null` from
`localStorage.getItem` becomes `Option String`, nullable object fields become
`Option`, and JS truthiness tests are translated explicitly (`null` and the
empty string are falsy).
-/

/-! ## PDV cart — frontend/src/features/orders/pages/OrdersPage.tsx -/

/-- `CartItem` from OrdersPage.tsx: one line of the PDV cart. -/
structure CartItem where
  product_id : Nat
  quantity : Nat
  name : String
  price : ℚ
deriving DecidableEq

/-- `Product` from OrdersPage.tsx (catalog entry; optional prices). -/
structure Product where
  id : Nat
  name : String
  sale_price : Option ℚ
  cost_price : Option ℚ
  type : String
deriving DecidableEq

/-- `addItem` from OrdersPage.tsx, restricted to its effect on `items`.
The guard `!product.sale_price || product.sale_price <= 0` rejects a missing
sale price, a zero price (falsy in JS) and a negative price, leaving the cart
unchanged; otherwise an existing line for the product is bumped by one, and a
new line with quantity 1 is appended when the product is not in the cart. -/
def addItem (product : Product) (items : List CartItem) : List CartItem :=
  match product.sale_price with
  | none => items
  | some sp =>
    if sp ≤ 0 then items
    else if items.any (fun item => item.product_id == product.id) then
      items.map (fun item =>
        if item.product_id == product.id then
          { item with quantity := item.quantity + 1 }
        else item)
    else
      items ++ [{ product_id := product.id, quantity := 1, name := product.name, price := sp }]

/-- `increment` from OrdersPage.tsx. -/
def increment (productId : Nat) (items : List CartItem) : List CartItem :=
  items.map (fun item =>
    if item.product_id == productId then { item with quantity := item.quantity + 1 } else item)

/-- `decrement` from OrdersPage.tsx: `Math.max(1, quantity - 1)` on the
matching line, then `filter (quantity > 0)`. -/
def decrement (productId : Nat) (items : List CartItem) : List CartItem :=
  (items.map (fun item =>
    if item.product_id == productId then { item with quantity := max 1 (item.quantity - 1) } else item)).filter
    (fun item => decide (0 < item.quantity))

/-- `removeItem` from OrdersPage.tsx. -/
def removeItem (productId : Nat) (items : List CartItem) : List CartItem :=
  items.filter (fun item => !(item.product_id == productId))

/-- `total` from OrdersPage.tsx:
`items.reduce((acc, item) => acc + item.price * item.quantity, 0)`. -/
def total (items : List CartItem) : ℚ :=
  items.foldl (fun acc item => acc + item.price * (item.quantity : ℚ)) 0

/-- Cart states reachable from the empty cart through the four PDV cart
operations. -/
inductive ReachableCart : List CartItem → Prop
  | empty : ReachableCart []
  | add (product : Product) {s : List CartItem} :
      ReachableCart s → ReachableCart (addItem product s)
  | inc (productId : Nat) {s : List CartItem} :
      ReachableCart s → ReachableCart (increment productId s)
  | dec (productId : Nat) {s : List CartItem} :
      ReachableCart s → ReachableCart (decrement productId s)
  | rem (productId : Nat) {s : List CartItem} :
      ReachableCart s → ReachableCart (removeItem productId s)

lemma list_foldl_add_eq_sum (f : CartItem → ℚ) (l : List CartItem) (a : ℚ) :
    l.foldl (fun acc item => acc + f item) a = a + (l.map f).sum := by
  induction l generalizing a with
  | nil => simp
  | cons x xs ih => simp [List.foldl_cons, ih, add_assoc]

/-- C5: the PDV order total is the sum over the cart of unit price times
quantity, and the empty cart has total 0. -/
theorem cart_total_is_sum_of_line_subtotals (items : List CartItem) :
    total items = (items.map (fun item => item.price * (item.quantity : ℚ))).sum
    ∧ total [] = 0 := by
  constructor
  · simpa using list_foldl_add_eq_sum (fun item => item.price * (item.quantity : ℚ)) items 0
  · rfl

/-! ### Cart invariants (claim C9) -/

/-- Invariant of the PDV cart: line product ids are pairwise distinct and
every line has quantity at least 1. -/
def CartInv (items : List CartItem) : Prop :=
  (items.map (fun item => item.product_id)).Nodup ∧ ∀ item ∈ items, 1 ≤ item.quantity

lemma map_ids_of_preserve (g : CartItem → CartItem)
    (hg : ∀ item, (g item).product_id = item.product_id) (items : List CartItem) :
    (items.map g).map (fun item => item.product_id) = items.map (fun item => item.product_id) := by
  induction items with
  | nil => rfl
  | cons x xs ih => simp [hg, ih]

lemma bump_preserves_id (pid : Nat) (item : CartItem) :
    ((if item.product_id == pid then { item with quantity := item.quantity + 1 } else item) :
      CartItem).product_id = item.product_id := by
  by_cases h : item.product_id == pid <;> simp [h]

lemma down_preserves_id (pid : Nat) (item : CartItem) :
    ((if item.product_id == pid then { item with quantity := max 1 (item.quantity - 1) } else item) :
      CartItem).product_id = item.product_id := by
  by_cases h : item.product_id == pid <;> simp [h]

lemma cartInv_increment (pid : Nat) {s : List CartItem} (h : CartInv s) :
    CartInv (increment pid s) := by
  obtain ⟨hnd, hq⟩ := h
  constructor
  · rw [increment, map_ids_of_preserve _ (bump_preserves_id pid)]
    exact hnd
  · intro item hmem
    rw [increment, List.mem_map] at hmem
    obtain ⟨item0, hmem0, rfl⟩ := hmem
    by_cases h0 : (item0.product_id == pid) = true
    · rw [if_pos h0]
      show 1 ≤ item0.quantity + 1
      omega
    · rw [if_neg h0]
      exact hq item0 hmem0

lemma cartInv_decrement (pid : Nat) {s : List CartItem} (h : CartInv s) :
    CartInv (decrement pid s) := by
  obtain ⟨hnd, hq⟩ := h
  constructor
  · rw [decrement]
    have hsub :
        ((List.filter (fun item => decide (0 < item.quantity))
            (s.map (fun item =>
              if item.product_id == pid then { item with quantity := max 1 (item.quantity - 1) }
              else item))).map (fun item => item.product_id)).Sublist
          ((s.map (fun item =>
              if item.product_id == pid then { item with quantity := max 1 (item.quantity - 1) }
              else item)).map (fun item => item.product_id)) :=
      List.Sublist.map _ (List.filter_sublist _)
    refine List.Nodup.sublist hsub ?_
    rw [map_ids_of_preserve _ (down_preserves_id pid)]
    exact hnd
  · intro item hmem
    rw [decrement, List.mem_filter] at hmem
    have := of_decide_eq_true hmem.2
    omega

lemma cartInv_removeItem (pid : Nat) {s : List CartItem} (h : CartInv s) :
    CartInv (removeItem pid s) := by
  obtain ⟨hnd, hq⟩ := h
  constructor
  · exact List.Nodup.sublist (List.Sublist.map _ (List.filter_sublist _)) hnd
  · intro item hmem
    rw [removeItem, List.mem_filter] at hmem
    exact hq item hmem.1

lemma cartInv_addItem (product : Product) {s : List CartItem} (h : CartInv s) :
    CartInv (addItem product s) := by
  obtain ⟨hnd, hq⟩ := h
  rw [addItem]
  cases hsp : product.sale_price with
  | none => exact ⟨hnd, hq⟩
  | some sp =>
    by_cases hpos : sp ≤ 0
    · simp only [hpos, if_true]
      exact ⟨hnd, hq⟩
    · simp only [hpos, if_false]
      by_cases hfound : s.any (fun item => item.product_id == product.id) = true
      · rw [if_pos hfound]
        exact cartInv_increment product.id ⟨hnd, hq⟩
      · rw [if_neg hfound]
        constructor
        · rw [List.map_append, List.nodup_append]
          refine ⟨hnd, List.nodup_singleton _, ?_⟩
          intro a ha hb
          simp only [List.map_cons, List.map_nil, List.mem_singleton] at hb
          rw [List.mem_map] at ha
          obtain ⟨item, hitem, rfl⟩ := ha
          rw [List.any_eq_true] at hfound
          exact hfound ⟨item, hitem, by simp [hb]⟩
        · intro item hmem
          rw [List.mem_append] at hmem
          rcases hmem with hmem | hmem
          · exact hq item hmem
          · simp only [List.mem_singleton] at hmem
            subst hmem
            exact le_refl 1

lemma cartInv_of_reachable {s : List CartItem} (h : ReachableCart s) : CartInv s := by
  induction h with
  | empty => exact ⟨List.nodup_nil, by intro item hmem; cases hmem⟩
  | add product _ ih => exact cartInv_addItem product ih
  | inc pid _ ih => exact cartInv_increment pid ih
  | dec pid _ ih => exact cartInv_decrement pid ih
  | rem pid _ ih => exact cartInv_removeItem pid ih

lemma addItem_existing_eq_increment (product : Product) (sp : ℚ) {s : List CartItem}
    (hsp : product.sale_price = some sp) (hpos : 0 < sp)
    (hin : ∃ item ∈ s, item.product_id = product.id) :
    addItem product s = increment product.id s := by
  obtain ⟨item, hitem, hid⟩ := hin
  have hany : s.any (fun item => item.product_id == product.id) = true := by
    rw [List.any_eq_true]
    exact ⟨item, hitem, by simp [hid]⟩
  rw [addItem, hsp]
  simp only [not_le.mpr hpos, if_false, hany, if_true]
  rfl

lemma decrement_quantity_one_noop {s : List CartItem} (hinv : CartInv s)
    {item : CartItem} (hitem : item ∈ s) (hone : item.quantity = 1) :
    decrement item.product_id s = s := by
  obtain ⟨hnd, hq⟩ := hinv
  have hmap : s.map (fun it =>
      if it.product_id == item.product_id then { it with quantity := max 1 (it.quantity - 1) }
      else it) = s := by
    have h1 : s.map (fun it =>
        if it.product_id == item.product_id then { it with quantity := max 1 (it.quantity - 1) }
        else it) = s.map id := by
      refine List.map_congr_left ?_
      intro x hx
      by_cases hid : (x.product_id == item.product_id) = true
      · have hxeq : x = item :=
          List.inj_on_of_nodup_map hnd hx hitem (by simpa using hid)
        subst hxeq
        rw [if_pos hid]
        obtain ⟨a, b, c, d⟩ := x
        simp only [id_eq]
        simp_all
      · rw [if_neg hid]
        rfl
    rw [h1, List.map_id]
  rw [decrement, hmap]
  rw [List.filter_eq_self]
  intro x hx
  have hx1 := hq x hx
  simp only [decide_eq_true_eq]
  omega

/-- C9 counterexample to the claim as stated: a product whose sale price is
missing (or not positive) and whose id is already in the cart makes `addItem`
a no-op — the existing line's quantity is NOT incremented. The cart below is
reachable (one successful `addItem` from the empty cart). -/
theorem addItem_unsellable_existing_noop :
    (addItem ⟨1, "Suco", some 5, none, "merchandise"⟩ []).map
        (fun item => (item.product_id, item.quantity)) = [(1, 1)]
    ∧ addItem ⟨1, "Suco", none, none, "merchandise"⟩
        (addItem ⟨1, "Suco", some 5, none, "merchandise"⟩ []) =
      addItem ⟨1, "Suco", some 5, none, "merchandise"⟩ [] := by
  constructor
  · decide
  · rfl

/-- C9 (amended): every cart reachable from the empty cart through `addItem`,
`increment`, `decrement` and `removeItem` has pairwise-distinct product ids
and every line quantity at least 1; `addItem` on a product with a positive
sale price that is already in the cart bumps that line by 1 instead of adding
a duplicate line (it is exactly `increment`, hence the cart length is
unchanged); `decrement` on a line with quantity 1 leaves the cart unchanged. -/
theorem cart_reachable_invariant {s : List CartItem} (h : ReachableCart s) :
    ((s.map (fun item => item.product_id)).Nodup ∧ ∀ item ∈ s, 1 ≤ item.quantity)
    ∧ (∀ product : Product, ∀ sp : ℚ, product.sale_price = some sp → 0 < sp →
        (∃ item ∈ s, item.product_id = product.id) →
        addItem product s = increment product.id s
        ∧ (addItem product s).length = s.length)
    ∧ (∀ item ∈ s, item.quantity = 1 → decrement item.product_id s = s) := by
  have hinv := cartInv_of_reachable h
  refine ⟨hinv, ?_, ?_⟩
  · intro product sp hsp hpos hin
    have heq := addItem_existing_eq_increment product sp hsp hpos hin
    refine ⟨heq, ?_⟩
    rw [heq, increment, List.length_map]
  · intro item hitem hone
    exact decrement_quantity_one_noop hinv hitem hone

/-- Witness for C9 at a concrete reachable cart. -/
theorem cart_reachable_invariant_witness :
    ((addItem ⟨7, "Prato", some 10, none, "dish"⟩ []).map
        (fun item => item.product_id)).Nodup
    ∧ addItem ⟨7, "Prato", some 10, none, "dish"⟩
        (addItem ⟨7, "Prato", some 10, none, "dish"⟩ []) =
      increment 7 (addItem ⟨7, "Prato", some 10, none, "dish"⟩ []) := by
  have h := cart_reachable_invariant
    (ReachableCart.add ⟨7, "Prato", some 10, none, "dish"⟩ ReachableCart.empty)
  refine ⟨h.1.1, ?_⟩
  exact (h.2.1 ⟨7, "Prato", some 10, none, "dish"⟩ 10 rfl (by norm_num)
    ⟨⟨7, 1, "Prato", 10⟩, by decide, rfl⟩).1

/-! ### PDV settlement (claim C6) -/

/-- `PaymentMethod` union type from OrdersPage.tsx. -/
inductive PaymentMethod
  | cash | pix | card_debit | card_credit | voucher | house_account
deriving DecidableEq

/-- One element of the body of `PUT /orders/{id}/pay`. -/
structure PaymentRecord where
  method : PaymentMethod
  amount : ℚ
deriving DecidableEq

/-- `OrderResponse` from OrdersPage.tsx: the created order as returned by
`POST /orders`. -/
structure OrderResponse where
  id : Nat
  total : ℚ
deriving DecidableEq

/-- `ReceiptItem` from OrdersPage.tsx. -/
structure ReceiptItem where
  name : String
  quantity : Nat
  price : ℚ
deriving DecidableEq

/-- `ReceiptData` from OrdersPage.tsx. -/
structure ReceiptData where
  orderId : Nat
  items : List ReceiptItem
  total : ℚ
  paymentMethod : PaymentMethod
  issuedAt : String
deriving DecidableEq

inductive QuickView | dishes | beverages
deriving DecidableEq

/-- The PDV component state touched by the settlement flow of OrdersPage.tsx
(`items`, `order`, `error`, `paymentMethod`, `searchTerm`, `quickView`,
`receiptData`). -/
structure PdvState where
  items : List CartItem
  order : Option OrderResponse
  error : Option String
  paymentMethod : PaymentMethod
  searchTerm : String
  quickView : Option QuickView
  receiptData : Option ReceiptData
deriving DecidableEq

/-- `clearCart` from OrdersPage.tsx. -/
def clearCart (keepReceipt : Bool) (s : PdvState) : PdvState :=
  { items := [], order := none, error := none, paymentMethod := PaymentMethod.cash,
    searchTerm := "", quickView := none,
    receiptData := if keepReceipt then s.receiptData else none }

/-- The request issued by `payOrderMutation.mutationFn`: `none` when no open
order exists (the function returns without calling the API), otherwise the
target order id together with the body `[{ method, amount: order.total }]`. -/
def payRequest (s : PdvState) : Option (Nat × List PaymentRecord) :=
  match s.order with
  | none => none
  | some o => some (o.id, [{ method := s.paymentMethod, amount := o.total }])

/-- `payOrderMutation.onSuccess` from OrdersPage.tsx: build the receipt from
the settled order, keep it, and clear the cart state (`clearCart` with
`keepReceipt`). `now` stands for `new Date().toISOString()`. -/
def paySuccess (now : String) (s : PdvState) : PdvState :=
  match s.order with
  | none => s
  | some o =>
    let receipt : ReceiptData :=
      { orderId := o.id, total := o.total, paymentMethod := s.paymentMethod, issuedAt := now,
        items := s.items.map (fun item =>
          { name := item.name, quantity := item.quantity, price := item.price }) }
    clearCart true { s with receiptData := some receipt }

/-- C6: when the PDV settles an order, the pay request body is the one-element
list `[{ method := selected method, amount := order.total }]`, and after a
successful settlement the open order is cleared, so no further pay request can
be issued for it from the PDV. -/
theorem pay_request_single_record_and_cleared (s : PdvState) (o : OrderResponse) (now : String)
    (h : s.order = some o) :
    payRequest s = some (o.id, [{ method := s.paymentMethod, amount := o.total }])
    ∧ (paySuccess now s).order = none
    ∧ payRequest (paySuccess now s) = none := by
  refine ⟨?_, ?_, ?_⟩
  · rw [payRequest, h]
  · rw [paySuccess, h]
    rfl
  · rw [paySuccess, h]
    rfl

/-- Witness for C6 at a concrete PDV state holding an open order. -/
theorem pay_request_single_record_and_cleared_witness :
    payRequest
        { items := [⟨3, 2, "Prato", 25⟩], order := some ⟨41, 50⟩, error := none,
          paymentMethod := PaymentMethod.pix, searchTerm := "", quickView := none,
          receiptData := none } =
      some (41, [{ method := PaymentMethod.pix, amount := 50 }])
    ∧ (paySuccess "2024-01-01T12:00:00Z"
        { items := [⟨3, 2, "Prato", 25⟩], order := some ⟨41, 50⟩, error := none,
          paymentMethod := PaymentMethod.pix, searchTerm := "", quickView := none,
          receiptData := none }).order = none := by
  have h := pay_request_single_record_and_cleared
    { items := [⟨3, 2, "Prato", 25⟩], order := some ⟨41, 50⟩, error := none,
      paymentMethod := PaymentMethod.pix, searchTerm := "", quickView := none,
      receiptData := none } ⟨41, 50⟩ "2024-01-01T12:00:00Z" rfl
  exact ⟨h.1, h.2.1⟩

/-! ## Payables screen — src/unnamed PayablesPage component -/

/-- Payable status union type; `opn` stands for the source's `'open'`
(a reserved word in Lean). -/
inductive PayableStatus | opn | paid | canceled
deriving DecidableEq

/-- `Payable` from PayablesPage. -/
structure Payable where
  id : Nat
  description : Option String
  amount : ℚ
  due_date : String
  supplier : Option String
  status : PayableStatus
deriving DecidableEq

/-- The two mutations the payables page can issue for a row:
`PUT /purchases/payables/{id}/settle` and `PUT /purchases/payables/{id}/cancel`. -/
inductive PayableAction | settle | cancel
deriving DecidableEq

/-- `openPayables` from PayablesPage: `filter (status === 'open')`. -/
def openPayables (payables : List Payable) : List Payable :=
  payables.filter (fun p => p.status == PayableStatus.opn)

/-- `closedPayables` from PayablesPage: `filter (status !== 'open')`. -/
def closedPayables (payables : List Payable) : List Payable :=
  payables.filter (fun p => !(p.status == PayableStatus.opn))

/-- The rows the payables page renders: the "Em aberto" table passes
`onAction = settle` and `onSecondaryAction = cancel` for each of its rows,
the "Historico" table passes no action. -/
def payableRows (payables : List Payable) : List (Payable × List PayableAction) :=
  (openPayables payables).map (fun p => (p, [PayableAction.settle, PayableAction.cancel]))
    ++ (closedPayables payables).map (fun p => (p, ([] : List PayableAction)))

/-- C7: the payables screen offers settle/cancel exactly on rows whose status
is open; every payable in a terminal state is listed in the history table with
no action, so the UI lets a payable leave the open state at most once. -/
theorem payables_actions_only_for_open (payables : List Payable) :
    (∀ p : Payable, ∀ acts : List PayableAction, (p, acts) ∈ payableRows payables →
        acts ≠ [] →
        acts = [PayableAction.settle, PayableAction.cancel] ∧ p.status = PayableStatus.opn)
    ∧ (∀ p ∈ payables, p.status ≠ PayableStatus.opn →
        (p, ([] : List PayableAction)) ∈ payableRows payables
        ∧ ∀ acts : List PayableAction, (p, acts) ∈ payableRows payables → acts = []) := by
  constructor
  · intro p acts hmem hne
    rw [payableRows, List.mem_append] at hmem
    rcases hmem with hmem | hmem
    · rw [List.mem_map] at hmem
      obtain ⟨q, hq, heq⟩ := hmem
      obtain ⟨rfl, rfl⟩ := Prod.mk.injEq .. ▸ heq
      rw [openPayables, List.mem_filter] at hq
      refine ⟨rfl, ?_⟩
      simpa using hq.2
    · rw [List.mem_map] at hmem
      obtain ⟨q, _, heq⟩ := hmem
      exact absurd (congrArg Prod.snd heq).symm hne
  · intro p hp hstatus
    have hclosed : p ∈ closedPayables payables := by
      rw [closedPayables, List.mem_filter]
      refine ⟨hp, ?_⟩
      simpa using hstatus
    constructor
    · rw [payableRows, List.mem_append]
      right
      rw [List.mem_map]
      exact ⟨p, hclosed, rfl⟩
    · intro acts hmem
      rw [payableRows, List.mem_append] at hmem
      rcases hmem with hmem | hmem
      · rw [List.mem_map] at hmem
        obtain ⟨q, hq, heq⟩ := hmem
        rw [openPayables, List.mem_filter] at hq
        have hqp : q = p := congrArg Prod.fst heq
        have : p.status = PayableStatus.opn := by
          rw [← hqp]
          simpa using hq.2
        exact absurd this hstatus
      · rw [List.mem_map] at hmem
        obtain ⟨q, _, heq⟩ := hmem
        exact (congrArg Prod.snd heq).symm

/-- Witness for C7 on a concrete payables list with one open and one paid
entry. -/
theorem payables_actions_only_for_open_witness :
    (⟨2, none, 80, "2024-02-01", none, PayableStatus.paid⟩,
        ([] : List PayableAction)) ∈
      payableRows [⟨1, none, 50, "2024-01-01", none, PayableStatus.opn⟩,
        ⟨2, none, 80, "2024-02-01", none, PayableStatus.paid⟩] := by
  exact ((payables_actions_only_for_open
    [⟨1, none, 50, "2024-01-01", none, PayableStatus.opn⟩,
      ⟨2, none, 80, "2024-02-01", none, PayableStatus.paid⟩]).2
    ⟨2, none, 80, "2024-02-01", none, PayableStatus.paid⟩ (by decide) (by decide)).1

/-! ## Axios interceptors — frontend/src/hooks/useApi.ts -/

/-- The three `localStorage` keys the client reads and clears. `getItem`
returns `string | null`, embedded as `Option String`. -/
structure Storage where
  access_token : Option String
  refresh_token : Option String
  tenant : Option String
deriving DecidableEq

/-- An axios request configuration: its headers object plus every other part
of the configuration, abstracted as `rest`. -/
structure RequestConfig (α : Type) where
  headers : List (String × String)
  rest : α

/-- JS object-key assignment `headers[name] = value`: any previous entry for
`name` is overwritten. -/
def setHeader (name value : String) (headers : List (String × String)) :
    List (String × String) :=
  headers.filter (fun h => !(h.1 == name)) ++ [(name, value)]

/-- Header lookup. -/
def getHeader (name : String) (headers : List (String × String)) : Option String :=
  (headers.find? (fun h => h.1 == name)).map (fun h => h.2)

/-- First half of the request interceptor:
`const token = localStorage.getItem('access_token'); if (token) { headers['Authorization'] = `Bearer ...` }`.
A `null` or empty token is falsy and sets nothing. -/
def applyAuthHeader {α : Type} (storage : Storage) (config : RequestConfig α) :
    RequestConfig α :=
  match storage.access_token with
  | none => config
  | some token =>
    if token == "" then config
    else { config with headers := setHeader "Authorization" ("Bearer " ++ token) config.headers }

/-- Second half of the request interceptor:
`const tenant = localStorage.getItem('tenant'); if (tenant) { headers['X-Tenant'] = tenant }`. -/
def applyTenantHeader {α : Type} (storage : Storage) (config : RequestConfig α) :
    RequestConfig α :=
  match storage.tenant with
  | none => config
  | some tenant =>
    if tenant == "" then config
    else { config with headers := setHeader "X-Tenant" tenant config.headers }

/-- `api.interceptors.request.use` from useApi.ts. -/
def requestInterceptor {α : Type} (storage : Storage) (config : RequestConfig α) :
    RequestConfig α :=
  applyTenantHeader storage (applyAuthHeader storage config)

lemma find?_filter_of_imp {α : Type} (p q : α → Bool) (l : List α)
    (h : ∀ a, p a = true → q a = true) :
    (l.filter q).find? p = l.find? p := by
  induction l with
  | nil => rfl
  | cons x xs ih =>
    by_cases hq : q x = true
    · rw [List.filter_cons_of_pos hq]
      by_cases hp : p x = true
      · rw [List.find?_cons_of_pos _ hp, List.find?_cons_of_pos _ hp]
      · rw [List.find?_cons_of_neg _ hp, List.find?_cons_of_neg _ hp]
        exact ih
    · rw [List.filter_cons_of_neg hq]
      have hp : ¬p x = true := fun hpx => hq (h x hpx)
      rw [List.find?_cons_of_neg _ hp]
      exact ih

lemma getHeader_setHeader_same (name value : String) (headers : List (String × String)) :
    getHeader name (setHeader name value headers) = some value := by
  rw [getHeader, setHeader, List.find?_append]
  have hnone : (headers.filter (fun h => !(h.1 == name))).find? (fun h => h.1 == name) = none := by
    rw [List.find?_eq_none]
    intro x hx
    rw [List.mem_filter] at hx
    intro hpx
    rw [hpx] at hx
    exact absurd hx.2 (by decide)
  rw [hnone, Option.none_or]
  rw [List.find?_cons_of_pos _ (by simp)]
  rfl

lemma getHeader_setHeader_other (name other value : String)
    (headers : List (String × String)) (hne : name ≠ other) :
    getHeader name (setHeader other value headers) = getHeader name headers := by
  rw [getHeader, setHeader, List.find?_append]
  have hfilter : (headers.filter (fun h => !(h.1 == other))).find? (fun h => h.1 == name) =
      headers.find? (fun h => h.1 == name) := by
    refine find?_filter_of_imp _ _ _ ?_
    intro a ha
    have : a.1 = name := by simpa using ha
    simp [this, hne]
  rw [hfilter, getHeader]
  cases hfind : headers.find? (fun h => h.1 == name) with
  | none =>
    rw [Option.none_or]
    rw [List.find?_cons_of_neg _ (by simp [Ne.symm hne])]
    rfl
  | some hd => rfl

lemma applyAuthHeader_rest {α : Type} (storage : Storage) (config : RequestConfig α) :
    (applyAuthHeader storage config).rest = config.rest := by
  cases hat : storage.access_token with
  | none => simp [applyAuthHeader, hat]
  | some token =>
    by_cases h : (token == "") = true
    · simp [applyAuthHeader, hat, h]
    · simp [applyAuthHeader, hat, h]

lemma applyTenantHeader_rest {α : Type} (storage : Storage) (config : RequestConfig α) :
    (applyTenantHeader storage config).rest = config.rest := by
  cases htn : storage.tenant with
  | none => simp [applyTenantHeader, htn]
  | some tenant =>
    by_cases h : (tenant == "") = true
    · simp [applyTenantHeader, htn, h]
    · simp [applyTenantHeader, htn, h]

lemma applyTenantHeader_getHeader_other {α : Type} (storage : Storage)
    (config : RequestConfig α) (name : String) (hne : name ≠ "X-Tenant") :
    getHeader name (applyTenantHeader storage config).headers =
      getHeader name config.headers := by
  cases htn : storage.tenant with
  | none => simp [applyTenantHeader, htn]
  | some tenant =>
    by_cases h : (tenant == "") = true
    · simp [applyTenantHeader, htn, h]
    · simp only [applyTenantHeader, htn]
      rw [if_neg h]
      exact getHeader_setHeader_other name "X-Tenant" tenant config.headers hne

lemma applyAuthHeader_getHeader_other {α : Type} (storage : Storage)
    (config : RequestConfig α) (name : String) (hne : name ≠ "Authorization") :
    getHeader name (applyAuthHeader storage config).headers =
      getHeader name config.headers := by
  cases hat : storage.access_token with
  | none => simp [applyAuthHeader, hat]
  | some token =>
    by_cases h : (token == "") = true
    · simp [applyAuthHeader, hat, h]
    · simp only [applyAuthHeader, hat]
      rw [if_neg h]
      exact getHeader_setHeader_other name "Authorization" ("Bearer " ++ token) config.headers hne

lemma applyAuthHeader_some {α : Type} {storage : Storage} (config : RequestConfig α)
    {token : String} (hat : storage.access_token = some token) (hne : token ≠ "") :
    getHeader "Authorization" (applyAuthHeader storage config).headers =
      some ("Bearer " ++ token) := by
  simp only [applyAuthHeader, hat]
  rw [if_neg (by simpa using hne)]
  exact getHeader_setHeader_same "Authorization" ("Bearer " ++ token) config.headers

lemma applyTenantHeader_some {α : Type} {storage : Storage} (config : RequestConfig α)
    {tenant : String} (htn : storage.tenant = some tenant) (hne : tenant ≠ "") :
    getHeader "X-Tenant" (applyTenantHeader storage config).headers = some tenant := by
  simp only [applyTenantHeader, htn]
  rw [if_neg (by simpa using hne)]
  exact getHeader_setHeader_same "X-Tenant" tenant config.headers

/-- C8 counterexample to the claim as stated: the key `access_token` is
present in storage with the empty string as value, yet the interceptor adds no
`Authorization` header — JS `if (token)` treats the empty string as falsy. -/
theorem empty_token_present_no_auth_header :
    (requestInterceptor ⟨some "", none, none⟩
        ({ headers := [], rest := () } : RequestConfig Unit)).headers = []
    ∧ getHeader "Authorization"
        (requestInterceptor ⟨some "", none, none⟩
          ({ headers := [], rest := () } : RequestConfig Unit)).headers = none := by
  exact ⟨rfl, rfl⟩

/-- C8 (amended): for every request, if a NON-EMPTY access token is stored the
request carries `Authorization: Bearer <token>`, and if a non-empty tenant is
stored it carries `X-Tenant: <tenant>`; every other part of the configuration
(its `rest` and every header under any other name) passes through unchanged. -/
theorem request_headers_from_storage {α : Type} (storage : Storage)
    (config : RequestConfig α) :
    (∀ token : String, storage.access_token = some token → token ≠ "" →
        getHeader "Authorization" (requestInterceptor storage config).headers =
          some ("Bearer " ++ token))
    ∧ (∀ tenant : String, storage.tenant = some tenant → tenant ≠ "" →
        getHeader "X-Tenant" (requestInterceptor storage config).headers = some tenant)
    ∧ (requestInterceptor storage config).rest = config.rest
    ∧ (∀ name : String, name ≠ "Authorization" → name ≠ "X-Tenant" →
        getHeader name (requestInterceptor storage config).headers =
          getHeader name config.headers) := by
  refine ⟨?_, ?_, ?_, ?_⟩
  · intro token hat hne
    rw [requestInterceptor,
      applyTenantHeader_getHeader_other storage _ "Authorization" (by decide)]
    exact applyAuthHeader_some config hat hne
  · intro tenant htn hne
    rw [requestInterceptor]
    exact applyTenantHeader_some _ htn hne
  · rw [requestInterceptor, applyTenantHeader_rest, applyAuthHeader_rest]
  · intro name hna hnt
    rw [requestInterceptor, applyTenantHeader_getHeader_other storage _ name hnt,
      applyAuthHeader_getHeader_other storage _ name hna]

/-- Witness for C8 with a concrete token, tenant and configuration. -/
theorem request_headers_from_storage_witness :
    getHeader "Authorization"
        (requestInterceptor ⟨some "tok123", none, some "rest1"⟩
          ({ headers := [("Accept", "application/json")], rest := 7 } :
            RequestConfig Nat)).headers = some ("Bearer " ++ "tok123")
    ∧ getHeader "X-Tenant"
        (requestInterceptor ⟨some "tok123", none, some "rest1"⟩
          ({ headers := [("Accept", "application/json")], rest := 7 } :
            RequestConfig Nat)).headers = some "rest1" := by
  have h := request_headers_from_storage ⟨some "tok123", none, some "rest1"⟩
    ({ headers := [("Accept", "application/json")], rest := 7 } : RequestConfig Nat)
  exact ⟨h.1 "tok123" rfl (by decide), h.2.1 "rest1" rfl (by decide)⟩

/-- `error?.response?.status` of a rejected axios response. -/
structure ApiError where
  status : Option Nat
deriving DecidableEq

/-- The browser-visible state the response interceptor acts on. -/
structure BrowserState where
  storage : Storage
  pathname : String
deriving DecidableEq

/-- `api.interceptors.response.use` error branch from useApi.ts, in a browser
context (`window` defined): on status 401 it removes `access_token`,
`refresh_token` and `tenant` and calls `window.location.replace('/login')`
unless the path already is `/login`; in every case it returns
`Promise.reject(error)`. -/
def responseErrorInterceptor (error : ApiError) (browser : BrowserState) :
    BrowserState × Except ApiError Unit :=
  if error.status == some 401 then
    ({ storage := { access_token := none, refresh_token := none, tenant := none },
       pathname := if browser.pathname == "/login" then browser.pathname else "/login" },
      Except.error error)
  else
    (browser, Except.error error)

/-- C10: a 401 response clears the three stored credentials and leaves the
browser at `/login` (navigating only when not already there), while the error
is still propagated; any other (or missing) status leaves storage and location
untouched, the error again propagated. -/
theorem response_401_clears_credentials (error : ApiError) (browser : BrowserState) :
    (error.status = some 401 →
        (responseErrorInterceptor error browser).1.storage =
          { access_token := none, refresh_token := none, tenant := none }
        ∧ (responseErrorInterceptor error browser).1.pathname = "/login"
        ∧ (browser.pathname = "/login" →
            (responseErrorInterceptor error browser).1.pathname = browser.pathname)
        ∧ (responseErrorInterceptor error browser).2 = Except.error error)
    ∧ (error.status ≠ some 401 →
        (responseErrorInterceptor error browser).1 = browser
        ∧ (responseErrorInterceptor error browser).2 = Except.error error) := by
  constructor
  · intro h401
    have hcond : (error.status == some 401) = true := by simp [h401]
    rw [responseErrorInterceptor]
    rw [if_pos hcond]
    refine ⟨rfl, ?_, ?_, rfl⟩
    · by_cases hp : (browser.pathname == "/login") = true
      · rw [if_pos hp]
        simpa using hp
      · rw [if_neg hp]
    · intro hlogin
      rw [if_pos (by simp [hlogin])]
  · intro hne
    have hcond : (error.status == some 401) = false := by
      simpa using hne
    rw [responseErrorInterceptor, hcond]
    exact ⟨rfl, rfl⟩

/-- Witness for C10 at a concrete 401 error and a concrete other-status
error. -/
theorem response_401_clears_credentials_witness :
    ((responseErrorInterceptor ⟨some 401⟩
        ⟨⟨some "tok", some "ref", some "acme"⟩, "/orders"⟩).1.storage =
      ({ access_token := none, refresh_token := none, tenant := none } : Storage))
    ∧ (responseErrorInterceptor ⟨some 500⟩
        ⟨⟨some "tok", some "ref", some "acme"⟩, "/orders"⟩).1 =
      ⟨⟨some "tok", some "ref", some "acme"⟩, "/orders"⟩ := by
  constructor
  · exact ((response_401_clears_credentials ⟨some 401⟩
      ⟨⟨some "tok", some "ref", some "acme"⟩, "/orders"⟩).1 rfl).1
  · exact ((response_401_clears_credentials ⟨some 500⟩
      ⟨⟨some "tok", some "ref", some "acme"⟩, "/orders"⟩).2 (by decide)).1

/-! ## Backend core modelled from the spec

The alert engine, consumption estimator, stock ledger and periodic aggregator
run in the backend service that the front end consumes over REST; their code
is not part of this repository snapshot, so they are modelled here from the
specification's component design (sections 4.1-4.4). -/

/-- Alert severity — the `'critical' | 'warning'` union of the client
contract (InventoryAlertsPage.tsx). -/
inductive AlertStatus | critical | warning
deriving DecidableEq

/-- Modelled from the spec: the AlertEngine classification (section 4.3, not
in the repository): `critical` when `currentBalance <= reorderPoint`,
`warning` when `reorderPoint < currentBalance <= reorderPoint *
warningMultiplier`, no alert otherwise. -/
def classify (currentBalance reorderPoint warningMultiplier : ℚ) : Option AlertStatus :=
  if currentBalance ≤ reorderPoint then some AlertStatus.critical
  else if currentBalance ≤ reorderPoint * warningMultiplier then some AlertStatus.warning
  else none

/-- C1: for a product carrying a (non-negative) reorder point and a warning
multiplier at least 1 (the UI offers 1.05 / 1.15 / 1.3), the classification is
critical exactly when balance ≤ reorder point, warning exactly when
reorder point < balance ≤ reorder point * multiplier, omitted exactly when
balance > reorder point * multiplier, and every emitted alert is critical or
warning. -/
theorem alert_classification_thresholds (b r m : ℚ) (hr : 0 ≤ r) (hm : 1 ≤ m) :
    (classify b r m = some AlertStatus.critical ↔ b ≤ r)
    ∧ (classify b r m = some AlertStatus.warning ↔ r < b ∧ b ≤ r * m)
    ∧ (classify b r m = none ↔ r * m < b)
    ∧ ∀ st : AlertStatus, classify b r m = some st →
        st = AlertStatus.critical ∨ st = AlertStatus.warning := by
  have hrm : r ≤ r * m := le_mul_of_one_le_right hr hm
  unfold classify
  split_ifs with h1 h2
  · refine ⟨⟨fun _ => h1, fun _ => rfl⟩, ⟨fun heq => ?_, fun hw => ?_⟩,
      ⟨fun heq => ?_, fun hgt => ?_⟩, fun st heq => ?_⟩
    · exact absurd heq (by simp)
    · exact absurd h1 (not_le.mpr hw.1)
    · exact absurd heq (by simp)
    · exact absurd h1 (not_le.mpr (lt_of_le_of_lt hrm hgt))
    · injection heq with h
      exact Or.inl h.symm
  · refine ⟨⟨fun heq => ?_, fun hle => ?_⟩,
      ⟨fun _ => ⟨not_le.mp h1, h2⟩, fun _ => rfl⟩,
      ⟨fun heq => ?_, fun hgt => ?_⟩, fun st heq => ?_⟩
    · exact absurd heq (by simp)
    · exact absurd hle h1
    · exact absurd heq (by simp)
    · exact absurd h2 (not_le.mpr hgt)
    · injection heq with h
      exact Or.inr h.symm
  · refine ⟨⟨fun heq => ?_, fun hle => ?_⟩, ⟨fun heq => ?_, fun hw => ?_⟩,
      ⟨fun _ => not_le.mp h2, fun _ => rfl⟩, fun st heq => ?_⟩
    · exact absurd heq (by simp)
    · exact absurd hle h1
    · exact absurd heq (by simp)
    · exact absurd hw.2 h2
    · exact absurd heq (by simp)

/-- Witness for C1 on the spec's own scenario: reorder point 10, multiplier
1.15 — balance 11 gives warning (11 ≤ 11.5), balance 12 gives no alert. -/
theorem alert_classification_thresholds_witness :
    (0 : ℚ) ≤ 10 ∧ (1 : ℚ) ≤ 23 / 20
    ∧ classify 11 10 (23 / 20) = some AlertStatus.warning
    ∧ classify 12 10 (23 / 20) = none := by
  refine ⟨by norm_num, by norm_num, ?_, ?_⟩
  · exact (alert_classification_thresholds 11 10 (23 / 20) (by norm_num)
      (by norm_num)).2.1.mpr (by norm_num)
  · exact (alert_classification_thresholds 12 10 (23 / 20) (by norm_num)
      (by norm_num)).2.2.1.mpr (by norm_num)

/-- Stock move type tags (`'in' | 'out' | 'adjust' | 'transfer'`); `inn`
stands for the source's `'in'`, a reserved word in Lean. -/
inductive MoveType | inn | out | adjust | transfer
deriving DecidableEq

/-- Modelled from the spec: one stock move of the StockLedger (section 3):
product reference, quantity magnitude as given by the caller, type tag,
optional reason, creation day. -/
structure StockMove where
  product_id : Nat
  quantity : ℚ
  type : MoveType
  reason : Option String
  day : Int
deriving DecidableEq

/-- Modelled from the spec: the outbound (`out`) moves of a product inside
the trailing window `[today - windowDays, today]` (section 4.2). -/
def outboundMovesInWindow (moves : List StockMove) (productId : Nat)
    (today windowDays : Int) : List StockMove :=
  moves.filter (fun m =>
    m.product_id == productId && m.type == MoveType.out
      && decide (today - windowDays ≤ m.day) && decide (m.day ≤ today))

/-- Modelled from the spec: `averageDailyConsumption(product, windowDays)`
(section 4.2, not in the repository): the sum of outbound quantities inside
the window divided by `windowDays`; `none` when the window holds no outbound
move — no division by zero, no fabricated rate. -/
def averageDailyConsumption (moves : List StockMove) (productId : Nat)
    (today windowDays : Int) : Option ℚ :=
  let outs := outboundMovesInWindow moves productId today windowDays
  if outs.isEmpty then none
  else some ((outs.map (fun m => m.quantity)).sum / (windowDays : ℚ))

/-- `InventoryAlert` from InventoryAlertsPage.tsx: the alert record the
backend returns and the page renders. -/
structure InventoryAlert where
  product_id : Nat
  product_name : String
  unit : Option String
  current_stock : ℚ
  reorder_point : ℚ
  par_level : Option ℚ
  avg_daily_consumption : Option ℚ
  coverage_days : Option ℚ
  status : AlertStatus
deriving DecidableEq

/-- Modelled from the spec: how the AlertEngine fills the consumption fields
of an alert (section 4.3): coverage days is `balance / avg` when an estimate
exists; both optional fields are omitted when it does not. -/
def mkAlert (productId : Nat) (productName : String) (unit : Option String)
    (balance reorderPoint : ℚ) (parLevel : Option ℚ) (estimate : Option ℚ)
    (status : AlertStatus) : InventoryAlert :=
  { product_id := productId, product_name := productName, unit := unit,
    current_stock := balance, reorder_point := reorderPoint, par_level := parLevel,
    avg_daily_consumption := estimate,
    coverage_days := estimate.map (fun avg => balance / avg),
    status := status }

/-- C3: the consumption estimate is `none` exactly when the product has no
outbound move inside the window, it is non-negative whenever defined (move
quantities are non-negative magnitudes and the window is positive), and an
alert built from an undefined estimate carries neither
`avg_daily_consumption` nor `coverage_days`. -/
theorem consumption_estimate_none_safe (moves : List StockMove) (productId : Nat)
    (today windowDays : Int)
    (hq : ∀ m ∈ moves, 0 ≤ m.quantity) (hw : 0 < windowDays) :
    (averageDailyConsumption moves productId today windowDays = none ↔
        outboundMovesInWindow moves productId today windowDays = [])
    ∧ (∀ q : ℚ, averageDailyConsumption moves productId today windowDays = some q → 0 ≤ q)
    ∧ (averageDailyConsumption moves productId today windowDays = none →
        ∀ (productName : String) (unit : Option String) (balance reorderPoint : ℚ)
          (parLevel : Option ℚ) (status : AlertStatus),
          (mkAlert productId productName unit balance reorderPoint parLevel
              (averageDailyConsumption moves productId today windowDays)
              status).avg_daily_consumption = none
          ∧ (mkAlert productId productName unit balance reorderPoint parLevel
              (averageDailyConsumption moves productId today windowDays)
              status).coverage_days = none) := by
  refine ⟨?_, ?_, ?_⟩
  · rw [averageDailyConsumption]
    by_cases hempty : (outboundMovesInWindow moves productId today windowDays).isEmpty = true
    · rw [if_pos hempty]
      exact ⟨fun _ => List.isEmpty_iff.mp hempty, fun _ => rfl⟩
    · rw [if_neg hempty]
      constructor
      · intro h
        exact absurd h (by simp)
      · intro h
        exact absurd (List.isEmpty_iff.mpr h) hempty
  · intro q hsome
    rw [averageDailyConsumption] at hsome
    by_cases hempty : (outboundMovesInWindow moves productId today windowDays).isEmpty = true
    · rw [if_pos hempty] at hsome
      exact absurd hsome (by simp)
    · rw [if_neg hempty] at hsome
      injection hsome with hq2
      rw [← hq2]
      apply div_nonneg
      · apply List.sum_nonneg
        intro x hx
        rw [List.mem_map] at hx
        obtain ⟨m, hm, rfl⟩ := hx
        have hm2 : m ∈ moves := List.mem_of_mem_filter hm
        exact hq m hm2
      · exact_mod_cast le_of_lt hw
  · intro hnone productName unit balance reorderPoint parLevel status
    rw [mkAlert, hnone]
    exact ⟨rfl, rfl⟩

/-- Witness for C3 with an empty move history: the estimate is undefined and
the alert shows no consumption and no coverage. -/
theorem consumption_estimate_none_safe_witness :
    averageDailyConsumption [] 1 100 7 = none
    ∧ (mkAlert 1 "Farinha" none 5 10 none (averageDailyConsumption [] 1 100 7)
        AlertStatus.critical).coverage_days = none := by
  have h := consumption_estimate_none_safe [] 1 100 7
    (by intro m hm; cases hm) (by norm_num)
  have hnone : averageDailyConsumption [] 1 100 7 = none := h.1.mpr rfl
  exact ⟨hnone, (h.2.2 hnone "Farinha" none 5 10 none AlertStatus.critical).2⟩

/-- Ledger-level error taxonomy (spec section 7). -/
inductive LedgerError
  | validationError | insufficientStockError | notFoundError | dataQualityError
deriving DecidableEq

/-- Modelled from the spec: one inbound stock batch (section 3); never
mutated after creation. -/
structure StockBatch where
  id : Nat
  product_id : Nat
  quantity : ℚ
  unit_cost : ℚ
  expiration : Option String
deriving DecidableEq

/-- Modelled from the spec: the StockLedger state (section 4.1) — the
append-only batch log plus the materialized running balance per product. -/
structure StockLedger where
  batches : List StockBatch
  nextBatchId : Nat
  balance : Nat → ℚ

/-- Modelled from the spec: `recordBatch(product, quantity, unitCost,
expiration?) → BatchId` (section 4.1, not in the repository): quantity must be
strictly positive, otherwise the operation fails with `ValidationError` and
records nothing; on success the batch is appended and the product balance
increases by `quantity`. -/
def recordBatch (ledger : StockLedger) (productId : Nat) (quantity unitCost : ℚ)
    (expiration : Option String) : Except LedgerError (StockLedger × Nat) :=
  if quantity ≤ 0 then Except.error LedgerError.validationError
  else Except.ok
    ({ batches := ledger.batches ++
        [{ id := ledger.nextBatchId, product_id := productId, quantity := quantity,
           unit_cost := unitCost, expiration := expiration }],
       nextBatchId := ledger.nextBatchId + 1,
       balance := fun p =>
         if p == productId then ledger.balance p + quantity else ledger.balance p },
      ledger.nextBatchId)

/-- C4: a stock entry with non-positive quantity fails with `ValidationError`
and records no batch; a batch is recorded only for strictly positive quantity
(and then exactly one batch is appended and the balance grows by it). -/
theorem recordBatch_requires_positive_quantity (ledger : StockLedger) (productId : Nat)
    (quantity unitCost : ℚ) (expiration : Option String) :
    (quantity ≤ 0 →
        recordBatch ledger productId quantity unitCost expiration =
          Except.error LedgerError.validationError)
    ∧ (∀ result : StockLedger × Nat,
        recordBatch ledger productId quantity unitCost expiration = Except.ok result →
        0 < quantity
        ∧ result.1.batches = ledger.batches ++
            [{ id := ledger.nextBatchId, product_id := productId, quantity := quantity,
               unit_cost := unitCost, expiration := expiration }]
        ∧ result.1.balance productId = ledger.balance productId + quantity) := by
  by_cases hle : quantity ≤ 0
  · constructor
    · intro _
      rw [recordBatch, if_pos hle]
    · intro result h
      rw [recordBatch, if_pos hle] at h
      exact absurd h (by simp)
  · constructor
    · intro h
      exact absurd h hle
    · intro result h
      rw [recordBatch, if_neg hle] at h
      injection h with h
      refine ⟨not_le.mp hle, ?_, ?_⟩
      · rw [← h]
      · rw [← h]
        simp

/-- Witness for C4: quantity 0 is rejected with a `ValidationError` on a
concrete empty ledger. -/
theorem recordBatch_requires_positive_quantity_witness :
    recordBatch ⟨[], 0, fun _ => 0⟩ 5 0 3 none =
      Except.error LedgerError.validationError := by
  exact (recordBatch_requires_positive_quantity ⟨[], 0, fun _ => 0⟩ 5 0 3 none).1
    (by norm_num)

/-! ### Periodic sales aggregation (claim C2) -/

/-- Report granularity (`'daily' | 'weekly' | 'monthly'` from
SalesReportsPage). -/
inductive Granularity | daily | weekly | monthly
deriving DecidableEq

/-- Modelled from the spec: a paid order as the PeriodicAggregator sees it
(section 4.4): settlement day (days since 1970-01-01) and order total. -/
structure PaidOrder where
  paidDay : Int
  total : ℚ
deriving DecidableEq

/-- Modelled from the spec: the calendar month holding a day number, encoded
as `year * 12 + (month - 1)` (civil calendar; day 0 is 1970-01-01). -/
def monthKey (z : Int) : Int :=
  let days := z + 719468
  let era := days.fdiv 146097
  let doe := days - era * 146097
  let yoe := (doe - doe.fdiv 1460 + doe.fdiv 36524 - doe.fdiv 146096).fdiv 365
  let y := yoe + era * 400
  let doy := doe - (365 * yoe + yoe.fdiv 4 - yoe.fdiv 100)
  let mp := (5 * doy + 2).fdiv 153
  let m := mp + (if mp < 10 then 3 else -9)
  let yy := if m ≤ 2 then y + 1 else y
  yy * 12 + (m - 1)

/-- Modelled from the spec: the Monday-aligned ISO week holding a day number;
day 4 (1970-01-05) was a Monday. -/
def weekKey (z : Int) : Int := (z - 4).fdiv 7

/-- Modelled from the spec: the bucket a day belongs to under a granularity
(section 4.4: daily = calendar day, weekly = Monday-aligned ISO week,
monthly = calendar month). -/
def bucketKey : Granularity → Int → Int
  | Granularity.daily, z => z
  | Granularity.weekly, z => weekKey z
  | Granularity.monthly, z => monthKey z

/-- The days of the inclusive range `[startDay, endDay]`. -/
def rangeDays (startDay endDay : Int) : List Int :=
  (List.range (endDay + 1 - startDay).toNat).map (fun (i : Nat) => startDay + (i : Int))

/-- Modelled from the spec: the paid orders whose settlement day falls inside
`[startDay, endDay]`. -/
def ordersInRange (orders : List PaidOrder) (startDay endDay : Int) : List PaidOrder :=
  orders.filter (fun o => decide (startDay ≤ o.paidDay) && decide (o.paidDay ≤ endDay))

/-- One `entries[]` element of `GET /analytics/periodic`. -/
structure PeriodEntry where
  key : Int
  total_orders : Nat
  total_revenue : ℚ
  average_ticket : ℚ
deriving DecidableEq

/-- The `summary` element of `GET /analytics/periodic`. -/
structure PeriodSummary where
  total_orders : Nat
  total_revenue : ℚ
  average_ticket : ℚ
deriving DecidableEq

/-- The `GET /analytics/periodic` response shape (SalesPeriodicReport). -/
structure PeriodicReport where
  granularity : Granularity
  startDay : Int
  endDay : Int
  entries : List PeriodEntry
  summary : PeriodSummary
deriving DecidableEq

/-- Modelled from the spec: the entry of one bucket (section 4.4);
`average_ticket` is 0 for an empty bucket, never a division by zero. -/
def mkEntry (g : Granularity) (orders : List PaidOrder) (startDay endDay key : Int) :
    PeriodEntry :=
  let os := (ordersInRange orders startDay endDay).filter
    (fun o => bucketKey g o.paidDay == key)
  { key := key, total_orders := os.length,
    total_revenue := (os.map (fun o => o.total)).sum,
    average_ticket :=
      if os.length = 0 then 0 else (os.map (fun o => o.total)).sum / (os.length : ℚ) }

/-- Modelled from the spec: the contiguous, non-overlapping buckets covering
`[startDay, endDay]` — the keys of the days of the range, deduplicated in
order. -/
def bucketKeys (g : Granularity) (startDay endDay : Int) : List Int :=
  ((rangeDays startDay endDay).map (bucketKey g)).dedup

/-- Modelled from the spec: the full `GET /analytics/periodic` computation —
per-bucket entries plus the overall summary over the same span
(section 4.4). -/
def periodicReport (g : Granularity) (orders : List PaidOrder) (startDay endDay : Int) :
    PeriodicReport :=
  let inRange := ordersInRange orders startDay endDay
  { granularity := g, startDay := startDay, endDay := endDay,
    entries := (bucketKeys g startDay endDay).map (mkEntry g orders startDay endDay),
    summary :=
      { total_orders := inRange.length,
        total_revenue := (inRange.map (fun o => o.total)).sum,
        average_ticket :=
          if inRange.length = 0 then 0
          else (inRange.map (fun o => o.total)).sum / (inRange.length : ℚ) } }

lemma sum_indicator_of_nodup_mem {ks : List Int} (k : Int) (c : ℚ)
    (hnd : ks.Nodup) (hmem : k ∈ ks) :
    (ks.map (fun j => if k == j then c else 0)).sum = c := by
  induction ks with
  | nil => cases hmem
  | cons x xs ih =>
    rw [List.map_cons, List.sum_cons]
    rcases List.mem_cons.mp hmem with rfl | hmem2
    · rw [if_pos (by simp)]
      have hnot : k ∉ xs := (List.nodup_cons.mp hnd).1
      have hzero : (xs.map (fun j => if k == j then c else 0)).sum = 0 := by
        apply List.sum_eq_zero
        intro y hy
        rw [List.mem_map] at hy
        obtain ⟨j, hj, rfl⟩ := hy
        rw [if_neg]
        intro hkj
        have hkj2 : k = j := by simpa using hkj
        exact hnot (hkj2 ▸ hj)
      rw [hzero, add_zero]
    · have hx : ¬(k == x) = true := by
        intro hkx
        have hkx2 : k = x := by simpa using hkx
        exact (List.nodup_cons.mp hnd).1 (hkx2 ▸ hmem2)
      rw [if_neg hx, zero_add]
      exact ih (List.nodup_cons.mp hnd).2 hmem2

lemma list_sum_map_add (f g : Int → ℚ) (ks : List Int) :
    (ks.map (fun k => f k + g k)).sum = (ks.map f).sum + (ks.map g).sum := by
  induction ks with
  | nil => simp
  | cons x xs ih =>
    rw [List.map_cons, List.map_cons, List.map_cons, List.sum_cons, List.sum_cons,
      List.sum_cons, ih]
    ring

lemma sum_over_buckets_eq_sum (f : PaidOrder → Int) (ks : List Int) (l : List PaidOrder)
    (hnd : ks.Nodup) (hcov : ∀ o ∈ l, f o ∈ ks) :
    (ks.map (fun k => ((l.filter (fun o => f o == k)).map (fun o => o.total)).sum)).sum
      = (l.map (fun o => o.total)).sum := by
  induction l with
  | nil => simp
  | cons o l ih =>
    have hcov2 : ∀ x ∈ l, f x ∈ ks := fun x hx => hcov x (List.mem_cons_of_mem o hx)
    have hsplit : ∀ k : Int,
        ((List.filter (fun x => f x == k) (o :: l)).map (fun x => x.total)).sum
          = (if f o == k then o.total else 0)
            + ((List.filter (fun x => f x == k) l).map (fun x => x.total)).sum := by
      intro k
      by_cases h : (f o == k) = true
      · simp [List.filter_cons, h]
      · simp [List.filter_cons, h]
    have hstep :
        (ks.map (fun k =>
            ((List.filter (fun x => f x == k) (o :: l)).map (fun x => x.total)).sum)).sum
          = (ks.map (fun k => (if f o == k then o.total else 0)
              + ((List.filter (fun x => f x == k) l).map (fun x => x.total)).sum)).sum := by
      exact congrArg List.sum (List.map_congr_left (fun k _ => hsplit k))
    rw [hstep, list_sum_map_add, sum_indicator_of_nodup_mem (f o) o.total hnd
      (hcov o (List.mem_cons_self o l)), ih hcov2, List.map_cons, List.sum_cons]

lemma mem_rangeDays {startDay endDay d : Int} (h1 : startDay ≤ d) (h2 : d ≤ endDay) :
    d ∈ rangeDays startDay endDay := by
  rw [rangeDays, List.mem_map]
  refine ⟨(d - startDay).toNat, ?_, ?_⟩
  · rw [List.mem_range]
    omega
  · omega

/-- C2: for every granularity and every date range over a fixed order
history, the periodic report carries a summary and the `total_revenue` of the
bucket entries sums exactly to the summary's `total_revenue` — every in-range
order lands in exactly one bucket, none is dropped or double-counted. -/
theorem periodic_bucket_revenue_partition (g : Granularity) (orders : List PaidOrder)
    (startDay endDay : Int) :
    ((periodicReport g orders startDay endDay).entries.map
        (fun e => e.total_revenue)).sum =
      (periodicReport g orders startDay endDay).summary.total_revenue := by
  have hnd : (bucketKeys g startDay endDay).Nodup := List.nodup_dedup _
  have hcov : ∀ o ∈ ordersInRange orders startDay endDay,
      bucketKey g o.paidDay ∈ bucketKeys g startDay endDay := by
    intro o ho
    rw [ordersInRange, List.mem_filter, Bool.and_eq_true] at ho
    have h1 : startDay ≤ o.paidDay := of_decide_eq_true ho.2.1
    have h2 : o.paidDay ≤ endDay := of_decide_eq_true ho.2.2
    rw [bucketKeys, List.mem_dedup, List.mem_map]
    exact ⟨o.paidDay, mem_rangeDays h1 h2, rfl⟩
  have hmain := sum_over_buckets_eq_sum (fun o => bucketKey g o.paidDay)
    (bucketKeys g startDay endDay) (ordersInRange orders startDay endDay) hnd hcov
  have hentries :
      ((periodicReport g orders startDay endDay).entries.map (fun e => e.total_revenue)).sum
        = (((bucketKeys g startDay endDay).map
            (mkEntry g orders startDay endDay)).map (fun e => e.total_revenue)).sum := rfl
  rw [hentries, List.map_map]
  exact hmain
